import Mathlib

/-!
Verification of the `cvremap` GStreamer element
(`ext/opencv/gstcvremap.cpp`): a shallow embedding of its per-frame
remap engine (`cv_remap_run`, `gst_cv_remap_set_property`) and of its
caps-negotiation code (`gst_cv_remap_transform_dimension`,
`gst_cv_remap_transform_dimension_value`, `gst_cv_remap_transform_caps`),
with theorems settling the specification's claims about them.

Machine integers: the C code computes dimension arithmetic in `gint64`
after clamping into `[1, G_MAXINT]`, so every intermediate fits and the
embedding uses mathematical `Int` with the explicit clamp.
-/

/-- `G_MAXINT`, the largest 32-bit `gint`. -/
def G_MAXINT : Int := 2147483647

/-- glib's `CLAMP(x, low, high)` macro:
`((x) > (high)) ? (high) : (((x) < (low)) ? (low) : (x))`. -/
def gstClamp (x lo hi : Int) : Int :=
  if x > hi then hi else if x < lo then lo else x

/-- `gst_cv_remap_transform_dimension` (gstcvremap.cpp:324-331):
`new_val = (gint64)val - (gint64)delta; new_val = CLAMP(new_val, 1, G_MAXINT)`.
The `gint64` arithmetic is exact, so plain `Int` subtraction models it. -/
def gst_cv_remap_transform_dimension (val delta : Int) : Int :=
  gstClamp (val - delta) 1 G_MAXINT

/-- The `GValue` shapes the element's dimension-transform code handles
(gstcvremap.cpp:340-380): a plain `int`, an int range, or a value list.
Any other `GValue` type makes `gst_cv_remap_transform_dimension_value`
fail, which the embedding models by having no further constructors. -/
inductive GVal where
  | i (n : Int)
  | range (lo hi : Int)
  | list (l : List GVal)

mutual

/-- `gst_cv_remap_transform_dimension_value` (gstcvremap.cpp:333-383).
Fixed int: transformed via `gst_cv_remap_transform_dimension`.
Int range: only the max is transformed (the min line is commented out in
the source); fails when `min >= max`. List: element-wise, dropping
elements that fail; fails when the resulting list is empty.
Returns `none` where the C function returns `FALSE`. -/
def gst_cv_remap_transform_dimension_value : GVal → Int → Option GVal
  | .i v, delta => some (.i (gst_cv_remap_transform_dimension v delta))
  | .range lo hi, delta =>
      let hi2 := gst_cv_remap_transform_dimension hi delta
      if lo ≥ hi2 then none else some (.range lo hi2)
  | .list l, delta =>
      match transformDimensionList l delta with
      | [] => none
      | l2 => some (.list l2)

/-- The loop over list members inside
`gst_cv_remap_transform_dimension_value` (gstcvremap.cpp:357-376):
appends each member's transform when it succeeds, drops it otherwise. -/
def transformDimensionList : List GVal → Int → List GVal
  | [], _ => []
  | v :: vs, delta =>
      match gst_cv_remap_transform_dimension_value v delta with
      | some v2 => v2 :: transformDimensionList vs delta
      | none => transformDimensionList vs delta

end

/-- A `cv::Mat` of pixels (or of map coordinates), with its pixel at
row `y`, column `x` given by `px y x`. Map coordinates are modelled as
integer-valued (the spec's interpolation at integral coordinates reduces
to direct sampling), pixels as integers (byte contents). -/
structure Mat where
  rows : Nat
  cols : Nat
  px : Nat → Nat → Int

/-- `cv::Mat::empty()`: true iff the matrix has no elements. -/
def Mat.isEmpty (m : Mat) : Bool := m.rows == 0 || m.cols == 0

/-- A default-constructed `cv::Mat()`: 0x0, no data. -/
def Mat.empty0 : Mat := ⟨0, 0, fun _ _ => 0⟩

/-- The state of a `GstCvRemap` instance (gstcvremap.h fields used by
gstcvremap.cpp): the `undistort` flag, `alpha`, the `doRemap` and
`settingsChanged` flags, the two maps and the maps path. -/
structure EngineState where
  showUndistorted : Bool
  alpha : Rat
  doRemap : Bool
  settingsChanged : Bool
  map1 : Mat
  map2 : Mat
  mapsPath : Option String

/-- `gst_cv_remap_init` (gstcvremap.cpp:171-186): `undistort` defaults
to TRUE, `alpha` to 0, both flags to FALSE, both maps to `cv::Mat()`,
the maps path to NULL. -/
def gst_cv_remap_init : EngineState :=
  { showUndistorted := true
    alpha := 0
    doRemap := false
    settingsChanged := false
    map1 := Mat.empty0
    map2 := Mat.empty0
    mapsPath := none }

/-- The writable properties of the element (gstcvremap.cpp:93):
`undistort`, `alpha` and `maps`. A `maps` value carries the optional
path string (`g_value_get_string` may return NULL). -/
inductive CvRemapProperty where
  | undistort (b : Bool)
  | alpha (a : Rat)
  | maps (path : Option String)

/-- `gst_cv_remap_set_property` (gstcvremap.cpp:197-234). The `maps`
case frees the stored path, stores the new one when non-NULL, and only
then — only when a path is present — reads both maps from the file; a
NULL path leaves the previously loaded maps in place. Every property
write ends by setting `settingsChanged` (line 232). `loadMaps` stands
for the external `cv::FileStorage` loader reading entries `map_a` and
`map_b` (an unreadable or empty file yields empty mats). -/
def gst_cv_remap_set_property (st : EngineState) (p : CvRemapProperty)
    (loadMaps : String → Mat × Mat) : EngineState :=
  let st1 :=
    match p with
    | .undistort b => { st with showUndistorted := b }
    | .alpha a => { st with alpha := a }
    | .maps path =>
        match path with
        | none => { st with mapsPath := none }
        | some s =>
            { st with mapsPath := some s
                      map1 := (loadMaps s).1
                      map2 := (loadMaps s).2 }
  { st1 with settingsChanged := true }

/-- The spec's `tableValid()`: both maps non-empty
(inlined at gstcvremap.cpp:290). -/
def tableValid (st : EngineState) : Bool :=
  !st.map1.isEmpty && !st.map2.isEmpty

/-- The settings-consumption step at the top of `cv_remap_run`
(gstcvremap.cpp:286-291): when `settingsChanged` is set, clear it and
recompute `doRemap = !map1.empty() && !map2.empty()`. -/
def consumeSettings (st : EngineState) : EngineState :=
  if st.settingsChanged then
    { st with settingsChanged := false, doRemap := tableValid st }
  else st

/-- `cv::Mat(outimg, cv::Range(0, r), cv::Range(0, c))`
(gstcvremap.cpp:298-299): the top-left r x c view of `outimg`, sharing
its storage. -/
def matRoi (outimg : Mat) (r c : Nat) : Mat :=
  ⟨r, c, fun y x => outimg.px y x⟩

/-- Whether a source coordinate pair lies inside the source image, so
that sampling at it is defined. -/
def srcCoordValid (img : Mat) (sx sy : Int) : Bool :=
  0 ≤ sx && sx < (img.cols : Int) && 0 ≤ sy && sy < (img.rows : Int)

/-- Modelled from the spec: `cv::remap(img, roi, map1, map2,
INTER_LINEAR, BORDER_TRANSPARENT)` (OpenCV, external to this
repository). "For every destination pixel at coordinates (x,y) within
the table's declared destination rectangle, sample the source image at
the coordinates given by (map-x[x,y], map-y[x,y]) ... Pixels outside
the valid source range under a transparent border policy are left
untouched in the destination." With integer-valued maps, interpolation
at an integral coordinate is direct sampling. -/
def cvRemapTransparent (img roi map1 map2 : Mat) : Mat :=
  ⟨roi.rows, roi.cols, fun y x =>
    if y < roi.rows ∧ x < roi.cols then
      let sx := map1.px y x
      let sy := map2.px y x
      if srcCoordValid img sx sy then img.px sy.toNat sx.toNat
      else roi.px y x
    else roi.px y x⟩

/-- Writing a remapped ROI back through the shared storage: pixels of
`outimg` inside the top-left r x c rectangle come from the ROI result,
the rest keep their previous contents (the ROI of gstcvremap.cpp:298
is a view, so `cv::remap` writes land directly in `outimg`). -/
def writeRoi (outimg roiNew : Mat) (r c : Nat) : Mat :=
  ⟨outimg.rows, outimg.cols, fun y x =>
    if y < r ∧ x < c then roiNew.px y x else outimg.px y x⟩

/-- Modelled from the spec: `img.copyTo(outimg)` (OpenCV, external to
this repository) — "copy `sourceImage` into `destImage` verbatim":
the destination becomes a full copy of the source. -/
def Mat.copyTo (img _outimg : Mat) : Mat := img

/-- The per-frame action of `cv_remap_run` after settings consumption
(gstcvremap.cpp:293-307): when `undistort` is enabled and `doRemap` is
set, remap into the top-left map-sized ROI of `outimg` with a
transparent border; otherwise copy the input verbatim. -/
def cvRemapFrame (st : EngineState) (img outimg : Mat) : Mat :=
  if st.showUndistorted && st.doRemap then
    writeRoi outimg
      (cvRemapTransparent img (matRoi outimg st.map1.rows st.map1.cols)
        st.map1 st.map2)
      st.map1.rows st.map1.cols
  else Mat.copyTo img outimg

/-- `cv_remap_run` (gstcvremap.cpp:283-308): consume a pending settings
change, then either remap or pass through. Returns the updated element
state and the resulting output image. -/
def cv_remap_run (st : EngineState) (img outimg : Mat) :
    EngineState × Mat :=
  let st2 := consumeSettings st
  (st2, cvRemapFrame st2 img outimg)

/-- `GstPadDirection`: the direction of the pad the `from` caps are on
in `gst_cv_remap_transform_caps`. -/
inductive PadDirection where
  | sink
  | src
  deriving DecidableEq

/-- The width delta of `gst_cv_remap_transform_caps`
(gstcvremap.cpp:408-417): `dw = 0`, then
`dw -= map1.cols - 3072` for the sink direction and
`dw += map1.cols + 3072` for the src direction. -/
def remapDeltaW (dir : PadDirection) (map1cols : Int) : Int :=
  match dir with
  | .sink => 0 - (map1cols - 3072)
  | .src => 0 + (map1cols + 3072)

/-- The height delta of `gst_cv_remap_transform_caps`
(gstcvremap.cpp:408-417): `dh = 0`, then
`dh -= map1.rows - 2048` for the sink direction and
`dh += map1.rows + 2048` for the src direction. -/
def remapDeltaH (dir : PadDirection) (map1rows : Int) : Int :=
  match dir with
  | .sink => 0 - (map1rows - 2048)
  | .src => 0 + (map1rows + 2048)

/-- One caps structure as the negotiation code sees it: its `width` and
`height` values (the pixel format is orthogonal to the size
transformation and is not modelled). -/
structure CapsStructure where
  width : GVal
  height : GVal

/-- The per-structure loop of `gst_cv_remap_transform_caps`
(gstcvremap.cpp:397-443): with no map loaded each structure is copied
unchanged; with a map loaded, width and height are transformed with the
direction's deltas, and any failure jumps to `bail`, which discards the
whole accumulated result (modelled by `none`). -/
def transformCapsLoop (map1 : Mat) (dir : PadDirection) :
    List CapsStructure → Option (List CapsStructure)
  | [] => some []
  | s :: rest =>
      if map1.isEmpty then
        (transformCapsLoop map1 dir rest).map (s :: ·)
      else
        match gst_cv_remap_transform_dimension_value s.width
            (remapDeltaW dir (map1.cols : Int)) with
        | none => none
        | some w2 =>
            match gst_cv_remap_transform_dimension_value s.height
                (remapDeltaH dir (map1.rows : Int)) with
            | none => none
            | some h2 =>
                (transformCapsLoop map1 dir rest).map
                  ({ width := w2, height := h2 } :: ·)

/-- Packaging surviving list members as a `GValue`: none is a failure,
one is the bare value, several form a list. -/
def mkListVal : List GVal → Option GVal
  | [] => none
  | [v] => some v
  | vs => some (.list vs)

mutual

/-- Model of `gst_value_intersect` (GStreamer core, external to this
repository), restricted to the value shapes the element handles:
equal ints intersect to the int; an int inside a range intersects to
the int; ranges intersect to their overlap (a single int when the
overlap is one point); a list intersects member-wise, yielding the bare
value when exactly one member survives. -/
def gvalIntersect : GVal → GVal → Option GVal
  | .i m, .i n => if m = n then some (.i m) else none
  | .i m, .range lo hi =>
      if lo ≤ m ∧ m ≤ hi then some (.i m) else none
  | .range lo hi, .i m =>
      if lo ≤ m ∧ m ≤ hi then some (.i m) else none
  | .range a b, .range c d =>
      let lo := max a c
      let hi := min b d
      if lo < hi then some (.range lo hi)
      else if lo = hi then some (.i lo) else none
  | .list l, x => mkListVal (intersectList l x)
  | x, .list l => mkListVal (intersectList l x)
termination_by a b => sizeOf a + sizeOf b
decreasing_by all_goals simp_wf <;> omega

/-- The member loop of list intersection: each member intersected with
the other value, failures dropped. -/
def intersectList : List GVal → GVal → List GVal
  | [], _ => []
  | v :: vs, x =>
      match gvalIntersect v x with
      | some r => r :: intersectList vs x
      | none => intersectList vs x
termination_by l x => sizeOf l + sizeOf x
decreasing_by all_goals simp_wf <;> omega

end

/-- Intersection of two caps structures: both the width values and the
height values must intersect. -/
def structIntersect (s t : CapsStructure) : Option CapsStructure :=
  match gvalIntersect s.width t.width with
  | none => none
  | some w =>
      match gvalIntersect s.height t.height with
      | none => none
      | some h => some { width := w, height := h }

/-- Model of `gst_caps_intersect` (GStreamer core, external to this
repository) on size structures: pairwise structure intersection,
keeping the first caps' order (exact for the uses in this file, where
the second caps has a single structure). -/
def capsIntersect (a b : List CapsStructure) : List CapsStructure :=
  a.flatMap (fun s => b.filterMap (fun t => structIntersect s t))

/-- Modelled from the spec: the size constraints of the element's pad
templates (gstcvremap.cpp:154-162 build them from
`gst_opencv_caps_from_cv_image_type`, external to this repository).
The templates constrain only the pixel formats and admit every size in
`[1, G_MAXINT]`, so in the size model they are a single full-range
structure. -/
def templStruct : CapsStructure :=
  { width := .range 1 G_MAXINT, height := .range 1 G_MAXINT }

/-- `gst_cv_remap_transform_caps` (gstcvremap.cpp:385-475): run the
per-structure loop (a `bail` returns fresh empty caps at once,
skipping both intersections), intersect with the opposite pad's
template caps, then with the externally supplied filter caps when one
is present. -/
def gst_cv_remap_transform_caps (map1 : Mat) (dir : PadDirection)
    (fromCaps : List CapsStructure)
    (filter : Option (List CapsStructure)) : List CapsStructure :=
  match transformCapsLoop map1 dir fromCaps with
  | none => []
  | some capsTo =>
      let ret := capsIntersect capsTo [templStruct]
      match filter with
      | none => ret
      | some f => capsIntersect f ret

/-- Modelled from the spec: the historical fixed-replacement
negotiation policy, not present in the current source. "Going
downstream-ward (forward), every candidate's width/height is replaced
outright by the table's destination width/height (ignoring the
candidate's own value) ... Going upstream-ward (reverse), the output
width/height is the most recent pinned upstream size if known, else
passed through unchanged"; with no table loaded, candidates pass
through unchanged. -/
def fixedReplacementPropose (dir : PadDirection)
    (tableSize : Option (Int × Int)) (pinned : Option (Int × Int))
    (cands : List CapsStructure) : List CapsStructure :=
  match tableSize with
  | none => cands
  | some (tw, th) =>
      match dir with
      | .sink => cands.map (fun _ => { width := .i tw, height := .i th })
      | .src =>
          match pinned with
          | some (pw, ph) =>
              cands.map (fun _ => { width := .i pw, height := .i ph })
          | none => cands

mutual

/-- Every dimension occurring in a `GValue` is at least 1. -/
def gvalAllPositive : GVal → Bool
  | .i n => decide (1 ≤ n)
  | .range lo hi => decide (1 ≤ lo) && decide (1 ≤ hi)
  | .list l => listAllPositive l

/-- `gvalAllPositive` over the members of a list. -/
def listAllPositive : List GVal → Bool
  | [] => true
  | v :: vs => gvalAllPositive v && listAllPositive vs

end

mutual

/-- A well-formed GStreamer dimension value: an int or range within
`[1, G_MAXINT]` (ranges with `min < max`, as `gst_value_set_int_range`
requires), or a list of at least two well-formed values (caps
simplification collapses shorter lists). -/
def gvalValid : GVal → Bool
  | .i n => decide (1 ≤ n) && decide (n ≤ G_MAXINT)
  | .range lo hi =>
      decide (1 ≤ lo) && decide (lo < hi) && decide (hi ≤ G_MAXINT)
  | .list l => decide (2 ≤ l.length) && listValid l

/-- `gvalValid` over the members of a list. -/
def listValid : List GVal → Bool
  | [] => true
  | v :: vs => gvalValid v && listValid vs

end

/-- A caps structure whose width and height are both well-formed. -/
def structValid (s : CapsStructure) : Bool :=
  gvalValid s.width && gvalValid s.height

/-- Whether a structure's width or height fails to transform with the
given map and direction (the condition that makes
`gst_cv_remap_transform_caps` jump to `bail`). -/
def structFailsTransform (map1 : Mat) (dir : PadDirection)
    (s : CapsStructure) : Bool :=
  (gst_cv_remap_transform_dimension_value s.width
      (remapDeltaW dir (map1.cols : Int))).isNone ||
  (gst_cv_remap_transform_dimension_value s.height
      (remapDeltaH dir (map1.rows : Int))).isNone

/-! Concrete fixtures used by the counterexamples and witnesses. -/

/-- A non-empty 2x2 map matrix. -/
def matK : Mat := ⟨2, 2, fun _ _ => 0⟩

/-- A loader whose files all hold the valid 2x2 map pair. -/
def loadK : String → Mat × Mat := fun _ => (matK, matK)

/-- A loader for which only the path "v" holds a valid map pair; every
other path (e.g. an unreadable one) yields empty mats, as
`cv::FileStorage` does for a missing file or entry. -/
def loadW : String → Mat × Mat :=
  fun s => if s = "v" then (matK, matK) else (Mat.empty0, Mat.empty0)

/-- A 2-row, 3-column source frame with distinct pixels. -/
def imgK : Mat := ⟨2, 3, fun y x => 10 * (y : Int) + (x : Int)⟩

/-- A 2-row, 3-column destination frame pre-filled with 7. -/
def outK : Mat := ⟨2, 3, fun _ _ => 7⟩

/-- An element that loaded maps and then had `undistort` set to FALSE:
two property mutations from the initial state. -/
def c1State : EngineState :=
  gst_cv_remap_set_property
    (gst_cv_remap_set_property gst_cv_remap_init
      (CvRemapProperty.maps (some "m")) loadK)
    (CvRemapProperty.undistort false) loadK

/-- C2 scenario states: maps set to NULL (absent), then to a valid
path, then to NULL again, one frame processed after each mutation. -/
def c2s1 : EngineState :=
  gst_cv_remap_set_property gst_cv_remap_init
    (CvRemapProperty.maps none) loadK

/-- First frame after the first (absent) load. -/
def c2r1 : EngineState × Mat := cv_remap_run c2s1 imgK outK

/-- Valid load after the first frame. -/
def c2s2 : EngineState :=
  gst_cv_remap_set_property c2r1.1 (CvRemapProperty.maps (some "v")) loadK

/-- Second frame. -/
def c2r2 : EngineState × Mat := cv_remap_run c2s2 imgK outK

/-- Maps set back to NULL (absent) after the valid load. -/
def c2s3 : EngineState :=
  gst_cv_remap_set_property c2r2.1 (CvRemapProperty.maps none) loadK

/-- Third frame, after the second (absent) load. -/
def c2r3 : EngineState × Mat := cv_remap_run c2s3 imgK outK

/-- A 1x2 x-coordinate map: destination column 0 samples source column
1, destination column 1 samples the out-of-range source column 5. -/
def map1W : Mat := ⟨1, 2, fun _ x => if x = 0 then 1 else 5⟩

/-- The matching 1x2 y-coordinate map: always source row 0. -/
def map2W : Mat := ⟨1, 2, fun _ _ => 0⟩

/-- An engine in steady state with the 1x2 table loaded and remapping
active, its destination (2x3) larger than the table (1x2). -/
def c5State : EngineState :=
  { showUndistorted := true
    alpha := 0
    doRemap := true
    settingsChanged := false
    map1 := map1W
    map2 := map2W
    mapsPath := none }

/-- A candidate caps set holding each representable shape: a fixed
size, and a range width with a list height. -/
def candsK : List CapsStructure :=
  [ { width := GVal.i 640, height := GVal.i 480 }
  , { width := GVal.range 2 100
    , height := GVal.list [GVal.i 10, GVal.i 20] } ]

/-- A loaded 2048-row, 3072-column map. -/
def mapM : Mat := ⟨2048, 3072, fun _ _ => 0⟩

/-- A candidate whose width range collapses under the src-direction
delta of `mapM` (both bounds clamp to 1). -/
def badS : CapsStructure := { width := GVal.range 1 2, height := GVal.i 5 }

/-- A candidate that transforms successfully under the src-direction
delta of `mapM`. -/
def goodS : CapsStructure :=
  { width := GVal.i 3072, height := GVal.i 2048 }

/-! Helper lemmas. -/

theorem gst_cv_remap_transform_dimension_bounds (val delta : Int) :
    1 ≤ gst_cv_remap_transform_dimension val delta ∧
    gst_cv_remap_transform_dimension val delta ≤ G_MAXINT := by
  simp only [gst_cv_remap_transform_dimension, gstClamp, G_MAXINT]
  split <;> [skip; split] <;> omega

theorem consumeSettings_flag (st : EngineState) :
    (consumeSettings st).settingsChanged = false := by
  cases hb : st.settingsChanged <;> simp [consumeSettings, hb]

theorem consumeSettings_of_false (st : EngineState)
    (h : st.settingsChanged = false) : consumeSettings st = st := by
  simp [consumeSettings, h]

theorem consumeSettings_of_true (st : EngineState)
    (h : st.settingsChanged = true) :
    consumeSettings st =
      { st with settingsChanged := false, doRemap := tableValid st } := by
  simp [consumeSettings, h]

theorem cv_remap_run_fst (st : EngineState) (img out : Mat) :
    (cv_remap_run st img out).1 = consumeSettings st := rfl

theorem set_property_sets_flag (st : EngineState) (p : CvRemapProperty)
    (loadMaps : String → Mat × Mat) :
    (gst_cv_remap_set_property st p loadMaps).settingsChanged = true := by
  cases p with
  | undistort b => rfl
  | alpha a => rfl
  | maps path => cases path <;> rfl

/-! C1. -/

/-- C1, counterexample: after loading valid maps and then disabling
`undistort` (both property mutations, so `settingsChanged` is set), the
next frame sets `doRemap` to TRUE even though `undistort` is FALSE —
the code recomputes `doRemap` from map validity alone, not as
`tableValid() && undistortEnabled` as the claim states. -/
theorem c1_counterexample :
    (cv_remap_run c1State imgK outK).1.doRemap = true ∧
    c1State.showUndistorted = false ∧
    tableValid c1State = true ∧
    (cv_remap_run c1State imgK outK).1.doRemap ≠
      (c1State.showUndistorted && tableValid c1State) := by
  refine ⟨rfl, rfl, rfl, ?_⟩
  decide

/-- C1, amended: any property mutation sets the settings-changed flag;
the next `cv_remap_run` consumes it (resets it to false) exactly once
and recomputes `doRemap = tableValid()` — from map validity alone, with
`undistortEnabled` consulted separately at each frame — and `doRemap`
(indeed the whole state) stays unchanged over further frames until the
next settings change. -/
theorem cvremap_settings_flag_lifecycle (st : EngineState) :
    (∀ (p : CvRemapProperty) (loadMaps : String → Mat × Mat),
      (gst_cv_remap_set_property st p loadMaps).settingsChanged = true) ∧
    (st.settingsChanged = true → ∀ img out : Mat,
      (cv_remap_run st img out).1.settingsChanged = false ∧
      (cv_remap_run st img out).1.doRemap = tableValid st) ∧
    (st.settingsChanged = false → ∀ img out : Mat,
      (cv_remap_run st img out).1 = st) := by
  refine ⟨fun p l => set_property_sets_flag st p l, fun h img out => ?_,
    fun h img out => ?_⟩
  · rw [cv_remap_run_fst, consumeSettings_of_true st h]
    exact ⟨rfl, rfl⟩
  · rw [cv_remap_run_fst, consumeSettings_of_false st h]

/-- C1, witness for the amended theorem, at the concrete two-mutation
state `c1State` (flag set) and at the initial state (flag clear). -/
theorem c1_witness :
    c1State.settingsChanged = true ∧
    (cv_remap_run c1State imgK outK).1.settingsChanged = false ∧
    (cv_remap_run c1State imgK outK).1.doRemap = tableValid c1State ∧
    gst_cv_remap_init.settingsChanged = false ∧
    (cv_remap_run gst_cv_remap_init imgK outK).1 = gst_cv_remap_init := by
  refine ⟨rfl, ((cvremap_settings_flag_lifecycle c1State).2.1 rfl imgK outK).1,
    ((cvremap_settings_flag_lifecycle c1State).2.1 rfl imgK outK).2, rfl,
    (cvremap_settings_flag_lifecycle gst_cv_remap_init).2.2 rfl imgK outK⟩

/-! C2. -/

/-- C2, counterexample: setting the `maps` property to an absent (NULL)
value does not clear previously loaded maps, so the empty-load /
valid-load / empty-load round trip ends with `doRemap = true` on the
frame after the final empty load, not `false` as the claim requires
(the first empty load, before any valid load, does behave as
claimed). -/
theorem c2_counterexample :
    c2r1.1.doRemap = false ∧ c2r2.1.doRemap = true ∧
    c2r3.1.doRemap = true := ⟨rfl, rfl, rfl⟩

/-- C2, amended: loading an empty table through a present maps path
whose file yields an empty map (e.g. an unreadable file) returns the
engine to pass-through (`doRemap = false`) at the next frame, both
before a valid load and after one; but a maps mutation with an absent
(NULL) path leaves the previously loaded maps in place, so it does not
restore pass-through. -/
theorem cvremap_empty_path_load_resets (st : EngineState)
    (loader : String → Mat × Mat) (pe : String) (img out : Mat)
    (hE : ((loader pe).1.isEmpty || (loader pe).2.isEmpty) = true) :
    (cv_remap_run (gst_cv_remap_set_property st
        (CvRemapProperty.maps (some pe)) loader) img out).1.doRemap
      = false := by
  rw [cv_remap_run_fst,
    consumeSettings_of_true _ (set_property_sets_flag _ _ _)]
  show tableValid _ = false
  simp only [tableValid, gst_cv_remap_set_property]
  cases h1 : (loader pe).1.isEmpty <;>
    cases h2 : (loader pe).2.isEmpty <;> simp_all

/-- C2, witness: with the loader `loadW` (path "" yields empty maps,
path "v" valid maps), the frame after each ""-load shows
`doRemap = false`, including after an intervening valid load. -/
theorem c2_witness :
    ((loadW "").1.isEmpty || (loadW "").2.isEmpty) = true ∧
    ((cv_remap_run (gst_cv_remap_set_property gst_cv_remap_init
        (CvRemapProperty.maps (some "")) loadW) imgK outK).1.doRemap
      = false) ∧
    ((cv_remap_run (gst_cv_remap_set_property
        (cv_remap_run (gst_cv_remap_set_property gst_cv_remap_init
          (CvRemapProperty.maps (some "v")) loadW) imgK outK).1
        (CvRemapProperty.maps (some "")) loadW) imgK outK).1.doRemap
      = false) := by
  exact ⟨by decide,
    cvremap_empty_path_load_resets gst_cv_remap_init loadW "" imgK outK
      (by decide),
    cvremap_empty_path_load_resets
      (cv_remap_run (gst_cv_remap_set_property gst_cv_remap_init
        (CvRemapProperty.maps (some "v")) loadW) imgK outK).1
      loadW "" imgK outK (by decide)⟩

/-! C3. -/

/-- C3: the reverse-direction (src) delta of
`gst_cv_remap_transform_caps` is never the negation of the
forward-direction (sink) delta: the sink branch subtracts
`map1.cols - 3072` (resp. `map1.rows - 2048`) while the src branch adds
`map1.cols + 3072` (resp. `map1.rows + 2048`), which differ from the
negation by the constant `2*3072` (resp. `2*2048`) for every table
size. The code contradicts the spec's stated inverse relationship. -/
theorem c3_reverse_delta_not_negation (cols rows : Int) :
    remapDeltaW PadDirection.src cols
      ≠ -(remapDeltaW PadDirection.sink cols) ∧
    remapDeltaH PadDirection.src rows
      ≠ -(remapDeltaH PadDirection.sink rows) := by
  constructor <;> simp only [remapDeltaW, remapDeltaH] <;> omega

/-! C4. -/

/-- C4, counterexample: for the range `[1, G_MAXINT]` and shift
`d = 1` (delta `-1`), the claim predicts the range
`[1, G_MAXINT + 1]` (since `wmin < wmax + d`), but the code clamps the
shifted upper bound to `G_MAXINT` and returns `[1, G_MAXINT]`. -/
theorem c4_counterexample :
    gst_cv_remap_transform_dimension_value (GVal.range 1 G_MAXINT) (-1)
      ≠ some (GVal.range 1 (G_MAXINT + 1)) ∧
    gst_cv_remap_transform_dimension_value (GVal.range 1 G_MAXINT) (-1)
      = some (GVal.range 1 G_MAXINT) ∧
    (1 : Int) < G_MAXINT + 1 := by
  have base : gst_cv_remap_transform_dimension_value
      (GVal.range 1 G_MAXINT) (-1) = some (GVal.range 1 G_MAXINT) := rfl
  refine ⟨?_, base, by norm_num [G_MAXINT]⟩
  intro h
  rw [base] at h
  injection h with h1
  injection h1 with h2 h3
  simp [G_MAXINT] at h3

/-- C4, amended: for every candidate range `[wmin, wmax]` and shift
`d`, delta-shift negotiation shifts only the upper bound and clamps it
into `[1, G_MAXINT]`, yielding `[wmin, clamp(wmax+d)]` when
`wmin < clamp(wmax+d)` and rejecting the candidate otherwise; the
lower bound is never shifted. -/
theorem cvremap_range_shift_clamped (wmin wmax d : Int) :
    gst_cv_remap_transform_dimension_value (GVal.range wmin wmax) (-d)
      = if wmin < max 1 (min (wmax + d) G_MAXINT)
        then some (GVal.range wmin (max 1 (min (wmax + d) G_MAXINT)))
        else none := by
  have hclamp : gst_cv_remap_transform_dimension wmax (-d)
      = max 1 (min (wmax + d) G_MAXINT) := by
    simp only [gst_cv_remap_transform_dimension, gstClamp, G_MAXINT]
    split <;> [skip; split] <;> omega
  simp only [gst_cv_remap_transform_dimension_value, hclamp]
  rcases lt_or_ge wmin (max 1 (min (wmax + d) G_MAXINT)) with h | h
  · rw [if_neg (by omega), if_pos h]
  · rw [if_pos (by omega), if_neg (by omega)]

/-! C5. -/

/-- C5: with remapping active (`undistort` enabled, `doRemap` set, no
pending settings change) and the destination at least as large as the
table, `cv_remap_run` writes only the top-left table-sized
sub-rectangle of the destination: every pixel outside that rectangle
keeps its previous value, every pixel inside it whose map coordinates
fall outside the source keeps its previous value (transparent border),
and every other pixel inside it receives the sampled source pixel. -/
theorem cvremap_subrect_only_written (st : EngineState) (img out : Mat)
    (hsc : st.settingsChanged = false) (hu : st.showUndistorted = true)
    (hd : st.doRemap = true)
    (hr : st.map1.rows ≤ out.rows) (hc : st.map1.cols ≤ out.cols) :
    ((cv_remap_run st img out).2.rows = out.rows ∧
      (cv_remap_run st img out).2.cols = out.cols) ∧
    (∀ y x : Nat, st.map1.rows ≤ y ∨ st.map1.cols ≤ x →
      (cv_remap_run st img out).2.px y x = out.px y x) ∧
    (∀ y x : Nat, y < st.map1.rows → x < st.map1.cols →
      srcCoordValid img (st.map1.px y x) (st.map2.px y x) = false →
      (cv_remap_run st img out).2.px y x = out.px y x) ∧
    (∀ y x : Nat, y < st.map1.rows → x < st.map1.cols →
      srcCoordValid img (st.map1.px y x) (st.map2.px y x) = true →
      (cv_remap_run st img out).2.px y x
        = img.px (st.map2.px y x).toNat (st.map1.px y x).toNat) := by
  have hrun : (cv_remap_run st img out).2
      = writeRoi out
          (cvRemapTransparent img (matRoi out st.map1.rows st.map1.cols)
            st.map1 st.map2)
          st.map1.rows st.map1.cols := by
    show cvRemapFrame (consumeSettings st) img out = _
    rw [consumeSettings_of_false st hsc]
    simp [cvRemapFrame, hu, hd]
  refine ⟨?_, ?_, ?_, ?_⟩
  · rw [hrun]; exact ⟨rfl, rfl⟩
  · intro y x hout
    rw [hrun]
    show (if y < st.map1.rows ∧ x < st.map1.cols then _ else out.px y x)
      = out.px y x
    rw [if_neg (by omega)]
  · intro y x hy hx hinvalid
    rw [hrun]
    show (if y < st.map1.rows ∧ x < st.map1.cols then
        (cvRemapTransparent img (matRoi out st.map1.rows st.map1.cols)
          st.map1 st.map2).px y x
      else out.px y x) = out.px y x
    rw [if_pos ⟨hy, hx⟩]
    show (if y < st.map1.rows ∧ x < st.map1.cols then
        if srcCoordValid img (st.map1.px y x) (st.map2.px y x) then _
        else (matRoi out st.map1.rows st.map1.cols).px y x
      else (matRoi out st.map1.rows st.map1.cols).px y x) = out.px y x
    rw [if_pos ⟨hy, hx⟩, if_neg (by simp [hinvalid]), matRoi]
  · intro y x hy hx hvalid
    rw [hrun]
    show (if y < st.map1.rows ∧ x < st.map1.cols then
        (cvRemapTransparent img (matRoi out st.map1.rows st.map1.cols)
          st.map1 st.map2).px y x
      else out.px y x)
      = img.px (st.map2.px y x).toNat (st.map1.px y x).toNat
    rw [if_pos ⟨hy, hx⟩]
    show (if y < st.map1.rows ∧ x < st.map1.cols then
        if srcCoordValid img (st.map1.px y x) (st.map2.px y x) then
          img.px (st.map2.px y x).toNat (st.map1.px y x).toNat
        else (matRoi out st.map1.rows st.map1.cols).px y x
      else (matRoi out st.map1.rows st.map1.cols).px y x)
      = img.px (st.map2.px y x).toNat (st.map1.px y x).toNat
    rw [if_pos ⟨hy, hx⟩, if_pos (by simp [hvalid])]

/-- C5, witness: with the 1x2 table of `c5State` in a 2x3 frame, the
pixel outside the table rectangle keeps the destination value 7, the
in-rectangle pixel whose source coordinate 5 is out of range keeps 7,
and the in-rectangle pixel with valid coordinates receives the source
pixel at row 0, column 1. -/
theorem c5_witness :
    (cv_remap_run c5State imgK outK).2.px 1 1 = outK.px 1 1 ∧
    (cv_remap_run c5State imgK outK).2.px 0 1 = outK.px 0 1 ∧
    (cv_remap_run c5State imgK outK).2.px 0 0 = imgK.px 0 1 := by
  have h := cvremap_subrect_only_written c5State imgK outK rfl rfl rfl
    (by decide) (by decide)
  exact ⟨h.2.1 1 1 (Or.inl (by decide)),
    h.2.2.1 0 1 (by decide) (by decide) (by decide),
    h.2.2.2 0 0 (by decide) (by decide) (by decide)⟩

/-! C7. -/

/-- C7: whenever the effective `doRemap` (after consuming a pending
settings change) is false, `cv_remap_run` copies the source image into
the destination verbatim, and a repeated call with the same source
again produces a destination byte-identical to the source. -/
theorem cvremap_passthrough_copy (st : EngineState)
    (img out out2 : Mat)
    (h : (consumeSettings st).doRemap = false)
    (hsz : img.rows = out.rows ∧ img.cols = out.cols) :
    (cv_remap_run st img out).2 = img ∧
    (cv_remap_run (cv_remap_run st img out).1 img out2).2 = img := by
  have hframe : ∀ (st2 : EngineState) (o : Mat), st2.doRemap = false →
      cvRemapFrame st2 img o = img := by
    intro st2 o h2
    simp [cvRemapFrame, h2, Mat.copyTo]
  constructor
  · exact hframe (consumeSettings st) out h
  · show cvRemapFrame (consumeSettings (consumeSettings st)) img out2 = img
    rw [consumeSettings_of_false _ (consumeSettings_flag st)]
    exact hframe (consumeSettings st) out2 h

/-! C6. -/

theorem transformCapsLoop_empty_map (m : Mat) (dir : PadDirection)
    (l : List CapsStructure) (hm : m.isEmpty = true) :
    transformCapsLoop m dir l = some l := by
  induction l with
  | nil => rfl
  | cons s rest ih => simp [transformCapsLoop, hm, ih]

mutual

theorem gvalIntersect_templ : ∀ (v : GVal), gvalValid v = true →
    gvalIntersect v (GVal.range 1 G_MAXINT) = some v
  | .i n, h => by
      simp only [gvalValid, Bool.and_eq_true, decide_eq_true_eq] at h
      simp only [gvalIntersect]
      rw [if_pos h]
  | .range a b, h => by
      simp only [gvalValid, Bool.and_eq_true, decide_eq_true_eq] at h
      simp only [gvalIntersect]
      rw [max_eq_left (by omega), min_eq_left (by omega),
        if_pos (by omega)]
  | .list l, h => by
      simp only [gvalValid, Bool.and_eq_true, decide_eq_true_eq] at h
      simp only [gvalIntersect]
      rw [intersectList_templ l h.2]
      rcases l with _ | ⟨a, _ | ⟨b, t⟩⟩
      · simp at h
      · simp at h
      · rfl

theorem intersectList_templ : ∀ (l : List GVal), listValid l = true →
    intersectList l (GVal.range 1 G_MAXINT) = l
  | [], _ => by simp [intersectList]
  | v :: vs, h => by
      simp only [listValid, Bool.and_eq_true] at h
      simp only [intersectList]
      rw [gvalIntersect_templ v h.1, intersectList_templ vs h.2]

end

theorem structIntersect_templ (s : CapsStructure)
    (h : structValid s = true) : structIntersect s templStruct = some s := by
  simp only [structValid, Bool.and_eq_true] at h
  simp only [structIntersect, templStruct,
    gvalIntersect_templ s.width h.1, gvalIntersect_templ s.height h.2]

theorem capsIntersect_templ (l : List CapsStructure)
    (h : l.all structValid = true) : capsIntersect l [templStruct] = l := by
  induction l with
  | nil => rfl
  | cons s rest ih =>
      simp only [List.all_cons, Bool.and_eq_true] at h
      have hhead : List.filterMap (fun t => structIntersect s t)
          [templStruct] = [s] := by
        simp [List.filterMap_cons, structIntersect_templ s h.1]
      show List.filterMap (fun t => structIntersect s t) [templStruct]
          ++ capsIntersect rest [templStruct] = s :: rest
      rw [hhead, ih h.2]
      rfl

/-- C6: with no remap table loaded (`map1` empty) and no filter caps,
`gst_cv_remap_transform_caps` returns the candidate set unchanged in
either direction, for every candidate set of well-formed sizes (the
pad-template intersection constrains only pixel formats, modelled as
the full size range, so well-formed candidates survive it intact). -/
theorem cvremap_no_table_identity (m : Mat) (dir : PadDirection)
    (cands : List CapsStructure) (hm : m.isEmpty = true)
    (hv : cands.all structValid = true) :
    gst_cv_remap_transform_caps m dir cands none = cands := by
  unfold gst_cv_remap_transform_caps
  rw [transformCapsLoop_empty_map m dir cands hm]
  exact capsIntersect_templ cands hv

/-- C6, witness: the mixed candidate set `candsK` (a fixed size and a
range-by-list size) passes through the no-table negotiation unchanged
in both directions. -/
theorem c6_witness :
    Mat.empty0.isEmpty = true ∧ candsK.all structValid = true ∧
    gst_cv_remap_transform_caps Mat.empty0 PadDirection.src candsK none
      = candsK ∧
    gst_cv_remap_transform_caps Mat.empty0 PadDirection.sink candsK none
      = candsK := by
  refine ⟨by decide, by decide, ?_, ?_⟩
  · exact cvremap_no_table_identity Mat.empty0 PadDirection.src candsK
      (by decide) (by decide)
  · exact cvremap_no_table_identity Mat.empty0 PadDirection.sink candsK
      (by decide) (by decide)

/-! C8. -/

/-- C8, counterexample: a range candidate with the nonpositive lower
bound -5 is emitted unchanged (the lower bound is never transformed,
so it is never clamped), contradicting "no candidate with a dimension
<= 0 is ever emitted" as quantified over every input value. -/
theorem c8_counterexample :
    gst_cv_remap_transform_dimension_value (GVal.range (-5) 10) 0
      = some (GVal.range (-5) 10) ∧ (-5 : Int) ≤ 0 := ⟨rfl, by norm_num⟩

mutual

theorem transform_dimension_value_positive : ∀ (v : GVal) (delta : Int)
    (v2 : GVal), gvalAllPositive v = true →
    gst_cv_remap_transform_dimension_value v delta = some v2 →
    gvalAllPositive v2 = true
  | .i n, delta, v2, _, he => by
      simp only [gst_cv_remap_transform_dimension_value,
        Option.some.injEq] at he
      subst he
      simp only [gvalAllPositive, decide_eq_true_eq]
      exact (gst_cv_remap_transform_dimension_bounds n delta).1
  | .range lo hi, delta, v2, h, he => by
      simp only [gvalAllPositive, Bool.and_eq_true,
        decide_eq_true_eq] at h
      simp only [gst_cv_remap_transform_dimension_value] at he
      split at he
      · exact absurd he (by simp)
      · rw [Option.some.injEq] at he
        subst he
        simp only [gvalAllPositive, Bool.and_eq_true, decide_eq_true_eq]
        exact ⟨h.1, (gst_cv_remap_transform_dimension_bounds hi delta).1⟩
  | .list l, delta, v2, h, he => by
      simp only [gvalAllPositive] at h
      simp only [gst_cv_remap_transform_dimension_value] at he
      rcases hm : transformDimensionList l delta with _ | ⟨a, t⟩
      · rw [hm] at he
        exact absurd he (by simp)
      · rw [hm] at he
        simp only [Option.some.injEq] at he
        subst he
        show listAllPositive (a :: t) = true
        rw [← hm]
        exact transformDimensionList_positive l delta h

theorem transformDimensionList_positive : ∀ (l : List GVal)
    (delta : Int), listAllPositive l = true →
    listAllPositive (transformDimensionList l delta) = true
  | [], _, _ => rfl
  | v :: vs, delta, h => by
      simp only [listAllPositive, Bool.and_eq_true] at h
      simp only [transformDimensionList]
      rcases htd : gst_cv_remap_transform_dimension_value v delta
        with _ | v2
      · exact transformDimensionList_positive vs delta h.2
      · simp only [listAllPositive, Bool.and_eq_true]
        exact ⟨transform_dimension_value_positive v delta v2 h.1 htd,
          transformDimensionList_positive vs delta h.2⟩

end

/-- C8, amended: `gst_cv_remap_transform_dimension` always clamps its
result into `[1, G_MAXINT]`, so every transformed dimension (fixed
values and range upper bounds) is positive, and for every input value
whose dimensions are all >= 1 the emitted candidate again has all
dimensions >= 1; a range's untransformed lower bound, however, passes
through unchanged, so a nonpositive input lower bound is re-emitted
rather than clamped or rejected. -/
theorem cvremap_dimension_clamped_positive :
    (∀ val delta : Int,
      1 ≤ gst_cv_remap_transform_dimension val delta ∧
      gst_cv_remap_transform_dimension val delta ≤ G_MAXINT) ∧
    (∀ (v : GVal) (delta : Int) (v2 : GVal),
      gvalAllPositive v = true →
      gst_cv_remap_transform_dimension_value v delta = some v2 →
      gvalAllPositive v2 = true) :=
  ⟨gst_cv_remap_transform_dimension_bounds,
    transform_dimension_value_positive⟩

/-- C8, witness for the amended theorem: the all-positive list
candidate `(5, [2,90])` transforms under delta 3 to the all-positive
`(2, [1,87])`, and the clamp bounds hold at `val = -7, delta = 0`. -/
theorem c8_witness :
    (1 ≤ gst_cv_remap_transform_dimension (-7) 0 ∧
      gst_cv_remap_transform_dimension (-7) 0 ≤ G_MAXINT) ∧
    gvalAllPositive (GVal.list [GVal.i 5, GVal.range 2 90]) = true ∧
    gst_cv_remap_transform_dimension_value
        (GVal.list [GVal.i 5, GVal.range 2 90]) 3
      = some (GVal.list [GVal.i 2, GVal.range 2 87]) ∧
    gvalAllPositive (GVal.list [GVal.i 2, GVal.range 2 87]) = true := by
  refine ⟨cvremap_dimension_clamped_positive.1 (-7) 0, by decide, rfl,
    cvremap_dimension_clamped_positive.2
      (GVal.list [GVal.i 5, GVal.range 2 90]) 3
      (GVal.list [GVal.i 2, GVal.range 2 87]) (by decide) rfl⟩

/-! C9. -/

/-- C9: under the spec's fixed-replacement policy with a loaded table
of destination size `tw x th`, downstream-direction (sink) negotiation
of any fixed-size candidate `w x h` yields exactly the single size
`tw x th`, regardless of `w` and `h`. -/
theorem cvremap_fixed_replacement_downstream (w h tw th : Int)
    (pinned : Option (Int × Int)) :
    fixedReplacementPropose PadDirection.sink (some (tw, th)) pinned
        [{ width := GVal.i w, height := GVal.i h }]
      = [{ width := GVal.i tw, height := GVal.i th }] := rfl

/-! C10. -/

theorem transformCapsLoop_bails (m : Mat) (dir : PadDirection)
    (cands : List CapsStructure) (s : CapsStructure)
    (hm : m.isEmpty = false) (hs : s ∈ cands)
    (hf : structFailsTransform m dir s = true) :
    transformCapsLoop m dir cands = none := by
  induction cands with
  | nil => exact absurd hs (by simp)
  | cons a rest ih =>
      simp only [transformCapsLoop, hm]
      rcases hw : gst_cv_remap_transform_dimension_value a.width
          (remapDeltaW dir (m.cols : Int)) with _ | w2
      · rfl
      · rcases hh : gst_cv_remap_transform_dimension_value a.height
            (remapDeltaH dir (m.rows : Int)) with _ | h2
        · rfl
        · have hsr : s ∈ rest := by
            rcases List.mem_cons.1 hs with he | hr
            · subst he
              rw [structFailsTransform, hw, hh] at hf
              exact absurd hf (by simp)
            · exact hr
          simp [ih hsr]

/-- C10: with a table loaded, if any single candidate structure's
width or height fails to transform, `gst_cv_remap_transform_caps`
returns the empty candidate set for the whole query (the `bail` path),
discarding every other candidate structure, for any filter. -/
theorem cvremap_bail_discards_all (m : Mat) (dir : PadDirection)
    (cands : List CapsStructure)
    (filter : Option (List CapsStructure)) (s : CapsStructure)
    (hm : m.isEmpty = false) (hs : s ∈ cands)
    (hf : structFailsTransform m dir s = true) :
    gst_cv_remap_transform_caps m dir cands filter = [] := by
  unfold gst_cv_remap_transform_caps
  rw [transformCapsLoop_bails m dir cands s hm hs hf]

/-- C10, witness: with the 2048x3072 table `mapM` in the src
direction, the candidate set `[goodS, badS]` — where `goodS`
transforms successfully and `badS`'s width range collapses — yields
the empty set. -/
theorem c10_witness :
    structFailsTransform mapM PadDirection.src badS = true ∧
    structFailsTransform mapM PadDirection.src goodS = false ∧
    gst_cv_remap_transform_caps mapM PadDirection.src [goodS, badS] none
      = [] := by
  refine ⟨by decide, by decide, ?_⟩
  exact cvremap_bail_discards_all mapM PadDirection.src [goodS, badS]
    none badS (by decide) (by simp) (by decide)

/-- C7, witness: from the initial state (no table, flag clear), a
frame and then a second frame both produce destinations byte-identical
to the 2x3 source `imgK`. -/
theorem c7_witness :
    (cv_remap_run gst_cv_remap_init imgK outK).2 = imgK ∧
    (cv_remap_run (cv_remap_run gst_cv_remap_init imgK outK).1
        imgK outK).2 = imgK :=
  cvremap_passthrough_copy gst_cv_remap_init imgK outK outK rfl
    ⟨rfl, rfl⟩
